import Mathlib

/-!
Shallow embedding of the sphere-tracing renderer in raymarching.py.

Scalars are modelled as rationals.  Square roots (numpy norms and
the bounding-sphere discriminant) are modelled by an explicit function
parameter sqrtFn : Q → Q; theorems whose truth depends on actual square
roots carry hypotheses pinning sqrtFn on the values it is applied to,
while the active-set bookkeeping facts hold for every sqrtFn.
The learned SDF network sdf_net.forward is an opaque function parameter,
as is sdf_net.get_normals.  Latent code rows are an opaque type parameter.
Fallible numpy operations (min of an empty array, arithmetic on None)
are modelled with Option / Except.
-/

namespace Raymarching

/-- Vector of three rational coordinates, modelling a row of a float32
array of shape (-, 3). -/
structure Vec3 where
  x : ℚ
  y : ℚ
  z : ℚ
deriving DecidableEq, Repr

/-- Zero vector, used as an out-of-bounds default for list lookups. -/
def v0 : Vec3 := ⟨0, 0, 0⟩

/-- Componentwise vector addition. -/
def vadd (a b : Vec3) : Vec3 := ⟨a.x + b.x, a.y + b.y, a.z + b.z⟩

/-- Componentwise vector subtraction. -/
def vsub (a b : Vec3) : Vec3 := ⟨a.x - b.x, a.y - b.y, a.z - b.z⟩

/-- Scalar multiplication of a vector. -/
def vsmul (q : ℚ) (v : Vec3) : Vec3 := ⟨q * v.x, q * v.y, q * v.z⟩

instance : Add Vec3 := ⟨vadd⟩

instance : Sub Vec3 := ⟨vsub⟩

instance : SMul ℚ Vec3 := ⟨vsmul⟩

/-- Dot product, modelling np.einsum of two (-,3) rows / np.dot. -/
def dot (a b : Vec3) : ℚ := a.x * b.x + a.y * b.y + a.z * b.z

/-- Cross product, modelling np.cross on 3-vectors. -/
def cross (a b : Vec3) : Vec3 :=
  ⟨a.y * b.z - a.z * b.y, a.z * b.x - a.x * b.z, a.x * b.y - a.y * b.x⟩

/-- Squared Euclidean norm of a 3-vector. -/
def normSq (a : Vec3) : ℚ := dot a a

/-- Clamp a scalar into the interval from lo to hi, modelling both
torch.clamp and np.clip (min of max). -/
def clampQ (lo hi x : ℚ) : ℚ := min (max x lo) hi

/-- Componentwise clamp of a vector, modelling np.clip on a (-,3) row. -/
def clampVec (lo hi : ℚ) (v : Vec3) : Vec3 :=
  ⟨clampQ lo hi v.x, clampQ lo hi v.y, clampQ lo hi v.z⟩

/-- Division of a vector by its Euclidean norm as computed through the
supplied square-root function, modelling `v /= np.linalg.norm(v)`. -/
def normalizeV (sqrtFn : ℚ → ℚ) (v : Vec3) : Vec3 :=
  (1 / sqrtFn (normSq v)) • v

/-- Maximum oracle batch size, BATCH_SIZE = 100000 in raymarching.py. -/
def BATCH_SIZE : ℕ := 100000

/-- Oracle adapter get_sdf (raymarching.py lines 37-45): splits the point
batch into floor(n / BATCH_SIZE) full sub-batches plus one remainder
sub-batch, queries `forward` on each together with a prefix of the latent
code rows of the same length as the sub-batch, and assembles the results
in input order.  The numpy slice assignments into a preallocated result
array are modelled as ordered concatenation, which agrees with the source
whenever the oracle honours its length contract (numpy raises otherwise,
spec section 7). -/
def getSdf {κ : Type} (forward : List Vec3 → List κ → List ℚ)
    (points : List Vec3) (codes : List κ) : List ℚ :=
  let n := points.length
  let bc := n / BATCH_SIZE
  ((List.range bc).flatMap (fun i =>
      forward ((points.drop (BATCH_SIZE * i)).take BATCH_SIZE) (codes.take BATCH_SIZE)))
    ++ forward (points.drop (BATCH_SIZE * bc)) (codes.take (n - BATCH_SIZE * bc))

/-- Oracle adapter get_normals (raymarching.py lines 47-54): same chunking
as get_sdf, but each sub-batch is passed to sdf_net.get_normals together
with the single latent code row. -/
def getNormals {κ : Type} (normalsFn : κ → List Vec3 → List Vec3)
    (points : List Vec3) (codeRow : κ) : List Vec3 :=
  let n := points.length
  let bc := n / BATCH_SIZE
  ((List.range bc).flatMap (fun i =>
      normalsFn codeRow ((points.drop (BATCH_SIZE * i)).take BATCH_SIZE)))
    ++ normalsFn codeRow (points.drop (BATCH_SIZE * bc))

/-- Sizes of the sub-batches the oracle adapter issues for a request of
n points: floor(n / BATCH_SIZE) full batches and one remainder batch
(issued even when empty, as in the source). -/
def subBatchSizes (n : ℕ) : List ℕ :=
  List.replicate (n / BATCH_SIZE) BATCH_SIZE ++ [n % BATCH_SIZE]

/-- Scatter write of True into a boolean tensor at a list of indices,
modelling `mask[indices] = 1` on a torch uint8 tensor. -/
def setTrueAt (m : List Bool) (js : List ℕ) : List Bool :=
  js.foldl (fun acc j => acc.set j true) m

/-- Scatter update `points[indices, :] += ray_directions[indices, :] * sdf`:
each pair carries an index and its clamped sdf step. -/
def updatePoints (dirs : List Vec3) (ps : List Vec3) (pairs : List (ℕ × ℚ)) : List Vec3 :=
  pairs.foldl (fun acc p => acc.set p.1 (acc.getD p.1 v0 + p.2 • dirs.getD p.1 v0)) ps

/-- Boolean-mask selection `xs[mask]` of numpy / torch: keep the entries
whose mask bit is set, in order. -/
def maskSelect {α : Type} (xs : List α) (mask : List Bool) : List α :=
  ((xs.zip mask).filter (fun p => p.2)).map (fun p => p.1)

/-- Indices at which a boolean mask is set, in increasing order. -/
def maskIndices (mask : List Bool) : List ℕ :=
  (List.range mask.length).filter (fun i => mask.getD i false)

/-- Mutable state of one marching pass: all ray positions, the hit (or
shadow) mask over all rays, and the active index list. -/
structure MarchState where
  points : List Vec3
  mask : List Bool
  indices : List ℕ
deriving DecidableEq, Repr

/-- Fixed data of one marching pass: the oracle, the latent code batch
built once before the loop, the per-ray directions, the step clamp
magnitude, the hit threshold, and the miss predicate applied to an
updated position (norm beyond radius for primary rays, height beyond the
bound for shadow rays). -/
structure StepArgs (κ : Type) where
  forward : List Vec3 → List κ → List ℚ
  codes : List κ
  dirs : List Vec3
  clampMag : ℚ
  thr : ℚ
  missP : Vec3 → Bool

/-- One iteration body shared by both marching loops (raymarching.py
lines 71-81 and 129-139): gather the active positions, query the oracle
through the adapter, clamp the distances in place, advance the active
rays, classify hits (0 < sdf < threshold) into the mask and drop them
from the active list, then drop the rays whose updated position passes
the miss predicate. -/
def marchStep {κ : Type} (a : StepArgs κ) (st : MarchState) : MarchState :=
  let testPoints := st.indices.map (fun j => st.points.getD j v0)
  let sdf0 := getSdf a.forward testPoints a.codes
  let sdf := sdf0.map (fun s => clampQ (-a.clampMag) a.clampMag s)
  let pairs := st.indices.zip sdf
  let points1 := updatePoints a.dirs st.points pairs
  let hitPairs := pairs.filter (fun p => decide (0 < p.2) && decide (p.2 < a.thr))
  let mask1 := setTrueAt st.mask (hitPairs.map (fun p => p.1))
  let idx1 := (pairs.filter (fun p => !(decide (0 < p.2) && decide (p.2 < a.thr)))).map
      (fun p => p.1)
  let idx2 := idx1.filter (fun j => !a.missP (points1.getD j v0))
  ⟨points1, mask1, idx2⟩

/-- Iterated marching body: the state the loop holds at the start of
iteration n (when it runs that far). -/
def marchIter {κ : Type} (a : StepArgs κ) (st : MarchState) : ℕ → MarchState
  | 0 => st
  | n + 1 => marchStep a (marchIter a st n)

/-- Result of running a marching loop: final state, whether the loop left
through the early exit (fewer than 2 active rays after an iteration),
the number of iterations executed, and the log of active index batches
handed to the oracle adapter, one per executed iteration. -/
structure MarchRun where
  state : MarchState
  early : Bool
  iters : ℕ
  queries : List (List ℕ)
deriving Repr

/-- Fuelled marching loop shared by both passes (raymarching.py lines
70-84 and 128-142): run the body, then exit early when fewer than 2 rays
remain active; otherwise continue until the fuel (iteration budget) is
exhausted.  The early-exit test sits after the body, as in the source. -/
def marchLoop {κ : Type} (a : StepArgs κ) : ℕ → MarchState → MarchRun
  | 0, st => ⟨st, false, 0, []⟩
  | n + 1, st =>
    let st1 := marchStep a st
    if st1.indices.length < 2 then ⟨st1, true, 1, [st.indices]⟩
    else
      let r := marchLoop a n st1
      ⟨r.state, r.early, r.iters + 1, st.indices :: r.queries⟩

/-- Normalized point-to-light shadow ray directions of get_shadows
(lines 58-59). -/
def shadowDirs (sqrtFn : ℚ → ℚ) (pts : List Vec3) (lightPos : Vec3) : List Vec3 :=
  pts.map (fun p => normalizeV sqrtFn (lightPos - p))

/-- Initial state of the shadow marching pass (lines 61-66): every start
point offset by 0.1 along its shadow ray, an all-zero shadow mask, and
every point active. -/
def shadowState (sqrtFn : ℚ → ℚ) (pts : List Vec3) (lightPos : Vec3) : MarchState :=
  ⟨((pts.zip (shadowDirs sqrtFn pts lightPos)).map
      (fun pd => pd.1 + (1 / 10 : ℚ) • pd.2)),
    List.replicate pts.length false, List.range pts.length⟩

/-- Fixed data of the shadow marching loop (lines 68-80): latent code
batch of min(count, BATCH_SIZE) rows, step clamp 0.1, the given hit
threshold, and the miss test `height above radius`. -/
def shadowArgs {κ : Type} (forward : List Vec3 → List κ → List ℚ)
    (pts : List Vec3) (lightPos : Vec3) (codeRow : κ) (sqrtFn : ℚ → ℚ)
    (thr radius : ℚ) : StepArgs κ :=
  ⟨forward, List.replicate (min pts.length BATCH_SIZE) codeRow,
    shadowDirs sqrtFn pts lightPos, 1 / 10, thr, fun p => decide (radius < p.y)⟩

/-- Shadow marching pass of get_shadows (raymarching.py lines 57-84):
run the marching loop for up to 200 iterations from the offset start
points. -/
def shadowMarchRun {κ : Type} (forward : List Vec3 → List κ → List ℚ)
    (pts : List Vec3) (lightPos : Vec3) (codeRow : κ) (sqrtFn : ℚ → ℚ)
    (thr radius : ℚ) : MarchRun :=
  marchLoop (shadowArgs forward pts lightPos codeRow sqrtFn thr radius) 200
    (shadowState sqrtFn pts lightPos)

/-- Shadow estimator get_shadows (raymarching.py lines 57-87).  When the
loop leaves through the early exit the source executes a bare `return`,
which yields None: modelled as `none`.  Otherwise the remaining active
rays are classified occluded and the boolean array is returned. -/
def getShadows {κ : Type} (forward : List Vec3 → List κ → List ℚ)
    (pts : List Vec3) (lightPos : Vec3) (codeRow : κ) (sqrtFn : ℚ → ℚ)
    (thr radius : ℚ) : Option (List Bool) :=
  let r := shadowMarchRun forward pts lightPos codeRow sqrtFn thr radius
  if r.early then none
  else some (setTrueAt r.state.mask r.state.indices)

/-- Camera basis of get_image (raymarching.py lines 91-95): forward is
the unit vector from the camera position toward the origin, right is
cross(forward, up-reference) and up is cross(forward, right).  No
degeneracy check is performed. -/
structure Camera where
  forward : Vec3
  right : Vec3
  up : Vec3
deriving DecidableEq, Repr

/-- Construction of the camera basis from the camera position. -/
def cameraBasis (sqrtFn : ℚ → ℚ) (camPos : Vec3) : Camera :=
  let fwd := (-(1 / sqrtFn (normSq camPos))) • camPos
  let right := cross fwd ⟨0, 1, 0⟩
  ⟨fwd, right, cross fwd right⟩

/-- Evenly spaced screen coordinates, modelling np.linspace(-1, 1, m)
(for m = 1 numpy returns the single start value -1). -/
def linspaceQ (m : ℕ) : List ℚ :=
  if m = 1 then [-1]
  else (List.range m).map (fun k => -1 + 2 * (k : ℚ) / ((m : ℚ) - 1))

/-- Screen-space sample grid of get_image (lines 97-102): np.meshgrid of
two copies of the linspace, stacked and reshaped so that sample
i * m + j carries (u, v) = (linspace[j], linspace[i]). -/
def screenGrid (m : ℕ) : List (ℚ × ℚ) :=
  (List.range m).flatMap (fun i =>
    (List.range m).map (fun j => ((linspaceQ m).getD j 0, (linspaceQ m).getD i 0)))

/-- Ray directions of get_image (lines 107-111): u * right + v * up +
focalDistance * forward for each grid sample, then normalized. -/
def rayDirections (sqrtFn : ℚ → ℚ) (cam : Camera) (focal : ℚ) (m : ℕ) : List Vec3 :=
  (screenGrid m).map (fun uv =>
    normalizeV sqrtFn (uv.1 • cam.right + uv.2 • cam.up + focal • cam.forward))

/-- Data produced by the primary-ray setup of get_image (lines 91-127):
ray directions, per-ray bounding-sphere discriminants and near
intersection distances, and the initial marching state after culling
rays with a negative discriminant and advancing the survivors to the
bounding sphere.  A negative discriminant makes np.sqrt return NaN and
the distance non-finite, so np.isfinite keeps exactly the rays with a
nonnegative discriminant. -/
structure PrimarySetup where
  dirs : List Vec3
  discs : List ℚ
  dists : List ℚ
  state : MarchState
deriving Repr

/-- Primary-ray setup of get_image (lines 91-127). -/
def primaryInit (sqrtFn : ℚ → ℚ) (camPos : Vec3) (resolution : ℕ) (focal : ℚ)
    (ssaa : ℕ) (radius : ℚ) : PrimarySetup :=
  let m := resolution * ssaa
  let cam := cameraBasis sqrtFn camPos
  let dirs := rayDirections sqrtFn cam focal m
  let n := m * m
  let points0 := List.replicate n camPos
  let bs := (points0.zip dirs).map (fun pd => 2 * dot pd.1 pd.2)
  let c := dot camPos camPos - radius * radius
  let discs := bs.map (fun b => b * b - 4 * c)
  let dists := (bs.zip discs).map (fun bd => (-bd.1 - sqrtFn bd.2) / 2)
  let indices0 := (List.range n).filter (fun i => decide (0 ≤ discs.getD i (-1)))
  let points1 := indices0.foldl (fun acc i =>
      acc.set i (acc.getD i v0 + (dists.getD i 0) • dirs.getD i v0)) points0
  ⟨dirs, discs, dists, ⟨points1, List.replicate n false, indices0⟩⟩

/-- Result of the full primary marching pass: ray directions, the loop
run, and the hit mask after the unconditional force-classification
`model_mask[indices] = 1` of line 144. -/
structure PrimaryResult where
  dirs : List Vec3
  run : MarchRun
  mask : List Bool
deriving Repr

/-- Fixed data of the primary marching loop (lines 126-138): latent code
batch of min(active count, BATCH_SIZE) rows, step clamp 0.02, the hit
threshold, and the miss test `distance from origin above radius`. -/
def primaryArgs {κ : Type} (forward : List Vec3 → List κ → List ℚ) (codeRow : κ)
    (sqrtFn : ℚ → ℚ) (camPos : Vec3) (resolution : ℕ) (focal thr : ℚ)
    (ssaa : ℕ) (radius : ℚ) : StepArgs κ :=
  let setup := primaryInit sqrtFn camPos resolution focal ssaa radius
  ⟨forward, List.replicate (min setup.state.indices.length BATCH_SIZE) codeRow,
    setup.dirs, 1 / 50, thr, fun p => decide (radius < sqrtFn (normSq p))⟩

/-- Primary marching pass of get_image (lines 91-144): setup, marching
loop, then force-classification of the remaining active rays as hits
(line 144, executed on every loop exit). -/
def primaryMarch {κ : Type} (forward : List Vec3 → List κ → List ℚ) (codeRow : κ)
    (sqrtFn : ℚ → ℚ) (camPos : Vec3) (resolution : ℕ) (focal thr : ℚ)
    (iterations : ℕ) (ssaa : ℕ) (radius : ℚ) : PrimaryResult :=
  let setup := primaryInit sqrtFn camPos resolution focal ssaa radius
  let r := marchLoop
      (primaryArgs forward codeRow sqrtFn camPos resolution focal thr ssaa radius)
      iterations setup.state
  ⟨setup.dirs, r, setTrueAt r.state.mask r.state.indices⟩

/-- Base color of the shading model, np.array([0.8, 0.1, 0.1]). -/
def baseColor : Vec3 := ⟨4 / 5, 1 / 10, 1 / 10⟩

/-- Per-hit shading of get_image (lines 157-172), with seen = 1 - shadow:
diffuse, reflected-ray specular with exponent 20, rim light with exponent
4, composed as baseColor * (diffuse * 0.5 + 0.5) + (specular * 0.3 + rim)
and clamped to the unit interval per channel. -/
def shadePoint (sqrtFn : ℚ → ℚ) (normal lightDir viewDir : Vec3) (seen : ℚ) : Vec3 :=
  let diffuse := clampQ 0 1 (dot lightDir normal) * seen
  let reflect0 := lightDir - (dot lightDir normal * 2) • normal
  let reflect := normalizeV sqrtFn reflect0
  let specular := clampQ 0 1 (dot reflect viewDir) ^ 20 * seen
  let rim := (1 - clampQ 0 1 (-(dot normal viewDir))) ^ 4 * (3 / 10)
  let color0 := (diffuse * (1 / 2) + 1 / 2) • baseColor
  let s := specular * (3 / 10) + rim
  clampVec 0 1 (color0 + ⟨s, s, s⟩)

/-- Shading model written from the words of spec section 4.5 (for the
refinement comparison of claim C8): diffuse = clamp(dot(l, n), 0, 1) *
(1 - shadowed); reflect = l - 2 dot(l, n) n, normalized; specular =
clamp(dot(reflect, v), 0, 1)^20 * (1 - shadowed); rim = (1 - clamp(-dot(n,
v), 0, 1))^4 * 0.3; color = baseColor * (diffuse * 0.5 + 0.5) + specular *
0.3 + rim, clamped per channel. -/
def shadeSpec (sqrtFn : ℚ → ℚ) (normal lightDir viewDir : Vec3) (shadowed : Bool) : Vec3 :=
  let unshadowed : ℚ := 1 - (if shadowed then 1 else 0)
  let diffuse := clampQ 0 1 (dot lightDir normal) * unshadowed
  let reflect := normalizeV sqrtFn (lightDir - (2 * dot lightDir normal) • normal)
  let specular := clampQ 0 1 (dot reflect viewDir) ^ 20 * unshadowed
  let rim := (1 - clampQ 0 1 (-(dot normal viewDir))) ^ 4 * (3 / 10)
  let s := specular * (3 / 10) + rim
  clampVec 0 1 ((diffuse * (1 / 2) + 1 / 2) • baseColor + ⟨s, s, s⟩)

/-- Failure modes of get_image that the source leaves to the runtime:
shadowFail models the TypeError of `1.0 - get_shadows(...)` when the
shadow pass returns None (line 152), emptyMin models the ValueError of
np.min over an empty array (line 177). -/
inductive RenderError where
  | shadowFail : RenderError
  | emptyMin : RenderError
deriving DecidableEq, Repr

/-- Full renderer get_image (raymarching.py lines 90-193) up to the
supersampled pixel buffer (the PIL downsampling resize of lines 188-191
is image I/O outside the embedding; claims are stated about the pixel
buffer).  Pixels start white, hit pixels take the shading color, and
ground pixels whose shadow ray reports occlusion are painted 0.4 gray.
When the ground shadow pass returns None, `ground_points[ground_shadows]`
is numpy indexing with None (np.newaxis), which selects every ground
candidate: all of them are painted gray. -/
def getImage {κ : Type} (forward : List Vec3 → List κ → List ℚ)
    (normalsFn : κ → List Vec3 → List Vec3) (codeRow : κ) (sqrtFn : ℚ → ℚ)
    (camPos lightPos : Vec3) (resolution : ℕ) (focal thr : ℚ)
    (iterations : ℕ) (ssaa : ℕ) (radius : ℚ) : Except RenderError (List Vec3) :=
  let pr := primaryMarch forward codeRow sqrtFn camPos resolution focal thr
      iterations ssaa radius
  let pointsF := pr.run.state.points
  let modelPoints := maskSelect pointsF pr.mask
  let normals := getNormals normalsFn modelPoints codeRow
  match getShadows forward modelPoints lightPos codeRow sqrtFn (1 / 1000) radius with
  | none => Except.error RenderError.shadowFail
  | some sh =>
    let seen : List ℚ := sh.map (fun b => 1 - (if b then 1 else 0))
    let lightDirs := modelPoints.map (fun p => normalizeV sqrtFn (lightPos - p))
    let viewDirs := maskSelect pr.dirs pr.mask
    let colors := (((normals.zip lightDirs).zip viewDirs).zip seen).map
        (fun q => shadePoint sqrtFn q.1.1.1 q.1.1.2 q.1.2 q.2)
    let ground0 := (List.range pointsF.length).filter (fun i =>
        decide ((pr.dirs.getD i v0).y < 0) && !(pr.mask.getD i false))
    match (modelPoints.map Vec3.y).min? with
    | none => Except.error RenderError.emptyMin
    | some gp =>
      let points2 := ground0.foldl (fun acc i =>
          let p := acc.getD i v0
          let d := pr.dirs.getD i v0
          acc.set i (p - ((p.y - gp) / d.y) • d)) pointsF
      let ground2 := ground0.filter (fun i =>
          decide (sqrtFn ((points2.getD i v0).x ^ 2 + (points2.getD i v0).z ^ 2) < 3))
      let gsh := getShadows forward (ground2.map (fun i => points2.getD i v0))
          lightPos codeRow sqrtFn (1 / 1000) 1
      let shadowIdx := match gsh with
        | some gs => maskSelect ground2 gs
        | none => ground2
      let pixels0 := List.replicate pointsF.length (⟨1, 1, 1⟩ : Vec3)
      let pixels1 := ((maskIndices pr.mask).zip colors).foldl
          (fun acc p => acc.set p.1 p.2) pixels0
      let pixels2 := shadowIdx.foldl
          (fun acc i => acc.set i (⟨2 / 5, 2 / 5, 2 / 5⟩ : Vec3)) pixels1
      Except.ok pixels2

/-- Square-root table used by the concrete witness runs: correct on every
value the demo configurations actually take a square root of, zero
elsewhere. -/
def sqrtDemo (q : ℚ) : ℚ :=
  if q = 0 then 0
  else if q = 1 then 1
  else if q = 4 then 2
  else if q = 9 then 3
  else if q = 9 / 4 then 3 / 2
  else if q = 49 / 16 then 7 / 4
  else if q = 2401 / 2500 then 49 / 50
  else 0

/-- Demo oracle: a scene in which the signed-distance oracle always
returns the large positive distance 10 (every ray misses the shape). -/
def forwardBig : List Vec3 → List Unit → List ℚ :=
  fun pts _ => pts.map (fun _ => 10)

/-- Demo normal oracle returning a constant upward normal. -/
def normalsUp : Unit → List Vec3 → List Vec3 :=
  fun _ pts => pts.map (fun _ => (⟨0, 1, 0⟩ : Vec3))

/-- Demo oracle for the adapter witness: the distance is the x
coordinate, independent of the latent codes. -/
def fwdX : List Vec3 → List Unit → List ℚ :=
  fun pts _ => pts.map Vec3.x

/-- Demo normal oracle for the adapter witness: the identity on points. -/
def nrmId : Unit → List Vec3 → List Vec3 :=
  fun _ pts => pts.map (fun p => p)

/-- Demo point batch for the adapter witness. -/
def ptsDemo : List Vec3 := [⟨1, 2, 3⟩, ⟨4, 5, 6⟩]

/-- Demo shadow-pass fixed data for the invariant witnesses: a single
surface point at the origin with the light at height 3. -/
def shadowDemoArgs : StepArgs Unit :=
  shadowArgs forwardBig [⟨0, 0, 0⟩] ⟨0, 3, 0⟩ () sqrtDemo (1 / 1000) 1

/-- Demo shadow-pass initial state matching shadowDemoArgs. -/
def shadowDemoState : MarchState := shadowState sqrtDemo [⟨0, 0, 0⟩] ⟨0, 3, 0⟩

@[simp] theorem vadd_def (a b : Vec3) : a + b = ⟨a.x + b.x, a.y + b.y, a.z + b.z⟩ := rfl

@[simp] theorem vsub_def (a b : Vec3) : a - b = ⟨a.x - b.x, a.y - b.y, a.z - b.z⟩ := rfl

@[simp] theorem vsmul_def (q : ℚ) (v : Vec3) : q • v = ⟨q * v.x, q * v.y, q * v.z⟩ := rfl

@[simp] theorem vec3_mk_x (a b c : ℚ) : (Vec3.mk a b c).x = a := rfl

@[simp] theorem vec3_mk_y (a b c : ℚ) : (Vec3.mk a b c).y = b := rfl

@[simp] theorem vec3_mk_z (a b c : ℚ) : (Vec3.mk a b c).z = c := rfl

theorem setTrueAt_cons (m : List Bool) (j : ℕ) (t : List ℕ) :
    setTrueAt m (j :: t) = setTrueAt (m.set j true) t := rfl

theorem length_setTrueAt : ∀ (js : List ℕ) (m : List Bool),
    (setTrueAt m js).length = m.length
  | [], _ => rfl
  | j :: t, m => by
    rw [setTrueAt_cons, length_setTrueAt t, List.length_set]

theorem getD_setTrueAt_not_mem : ∀ (js : List ℕ) (m : List Bool) (i : ℕ), i ∉ js →
    (setTrueAt m js).getD i false = m.getD i false
  | [], _, _, _ => rfl
  | j :: t, m, i, h => by
    have hij : i ≠ j := fun he => h (he ▸ List.mem_cons_self j t)
    have ht : i ∉ t := fun he => h (List.mem_cons_of_mem j he)
    rw [setTrueAt_cons, getD_setTrueAt_not_mem t _ _ ht]
    simp [List.getD_eq_getElem?_getD, List.getElem?_set, Ne.symm hij]

theorem getD_setTrueAt_mem : ∀ (js : List ℕ) (m : List Bool) (i : ℕ), i ∈ js →
    i < m.length → (setTrueAt m js).getD i false = true
  | j :: t, m, i, hmem, hlen => by
    rw [setTrueAt_cons]
    by_cases ht : i ∈ t
    · exact getD_setTrueAt_mem t _ _ ht (by rw [List.length_set]; exact hlen)
    · have hij : i = j := by
        rcases List.mem_cons.mp hmem with h | h
        · exact h
        · exact absurd h ht
      subst hij
      rw [getD_setTrueAt_not_mem t _ _ ht]
      simp [List.getD_eq_getElem?_getD, List.getElem?_set, hlen]

theorem updatePoints_cons (dirs ps : List Vec3) (p : ℕ × ℚ) (t : List (ℕ × ℚ)) :
    updatePoints dirs ps (p :: t) =
      updatePoints dirs (ps.set p.1 (ps.getD p.1 v0 + p.2 • dirs.getD p.1 v0)) t := rfl

theorem length_updatePoints : ∀ (pairs : List (ℕ × ℚ)) (dirs ps : List Vec3),
    (updatePoints dirs ps pairs).length = ps.length
  | [], _, _ => rfl
  | p :: t, dirs, ps => by
    rw [updatePoints_cons, length_updatePoints t, List.length_set]

theorem map_fst_zip_sublist {α β : Type} : ∀ (l1 : List α) (l2 : List β),
    ((l1.zip l2).map Prod.fst).Sublist l1
  | [], _ => by simp
  | _ :: _, [] => by simp
  | a :: t1, _ :: t2 => by
    simpa using (map_fst_zip_sublist t1 t2).cons₂ a

theorem marchStep_indices_sublist {κ : Type} (a : StepArgs κ) (st : MarchState) :
    (marchStep a st).indices.Sublist st.indices :=
  (List.filter_sublist _).trans
    (((List.filter_sublist _).map Prod.fst).trans (map_fst_zip_sublist _ _))

theorem marchStep_points_length {κ : Type} (a : StepArgs κ) (st : MarchState) :
    (marchStep a st).points.length = st.points.length :=
  length_updatePoints _ _ _

theorem marchStep_mask_length {κ : Type} (a : StepArgs κ) (st : MarchState) :
    (marchStep a st).mask.length = st.mask.length :=
  length_setTrueAt _ _

theorem marchStep_mask_getD_of_not_mem {κ : Type} (a : StepArgs κ) (st : MarchState)
    (i : ℕ) (h : i ∉ st.indices) :
    (marchStep a st).mask.getD i false = st.mask.getD i false := by
  refine getD_setTrueAt_not_mem _ _ _ (fun hmem => h ?_)
  have h1 : i ∈ (st.indices.zip ((getSdf a.forward
      (st.indices.map (fun j => st.points.getD j v0)) a.codes).map
      (fun s => clampQ (-a.clampMag) a.clampMag s))).map Prod.fst :=
    (((List.filter_sublist _).map Prod.fst).subset) hmem
  exact (map_fst_zip_sublist _ _).subset h1

theorem marchIter_succ {κ : Type} (a : StepArgs κ) (st : MarchState) (n : ℕ) :
    marchIter a st (n + 1) = marchStep a (marchIter a st n) := rfl

theorem marchIter_sublist_succ {κ : Type} (a : StepArgs κ) (st : MarchState) (n : ℕ) :
    (marchIter a st (n + 1)).indices.Sublist (marchIter a st n).indices :=
  marchStep_indices_sublist a _

theorem marchIter_sublist_le {κ : Type} (a : StepArgs κ) (st : MarchState) :
    ∀ {n m : ℕ}, n ≤ m → (marchIter a st m).indices.Sublist (marchIter a st n).indices := by
  intro n m h
  induction m with
  | zero =>
    rw [Nat.le_zero.mp h]
  | succ k ih =>
    rcases Nat.lt_or_ge n (k + 1) with hlt | hge
    · exact (marchIter_sublist_succ a st k).trans (ih (Nat.lt_succ_iff.mp hlt))
    · rw [Nat.le_antisymm h hge]

theorem marchIter_sublist_init {κ : Type} (a : StepArgs κ) (st : MarchState) (n : ℕ) :
    (marchIter a st n).indices.Sublist st.indices :=
  marchIter_sublist_le a st (Nat.zero_le n)

theorem marchIter_nodup {κ : Type} (a : StepArgs κ) (st : MarchState)
    (h : st.indices.Nodup) (n : ℕ) : (marchIter a st n).indices.Nodup :=
  h.sublist (marchIter_sublist_init a st n)

theorem marchIter_points_length {κ : Type} (a : StepArgs κ) (st : MarchState) :
    ∀ n : ℕ, (marchIter a st n).points.length = st.points.length
  | 0 => rfl
  | n + 1 => (marchStep_points_length a _).trans (marchIter_points_length a st n)

theorem marchIter_mask_length {κ : Type} (a : StepArgs κ) (st : MarchState) :
    ∀ n : ℕ, (marchIter a st n).mask.length = st.mask.length
  | 0 => rfl
  | n + 1 => (marchStep_mask_length a _).trans (marchIter_mask_length a st n)

theorem marchIter_not_mem {κ : Type} (a : StepArgs κ) (st : MarchState) (i : ℕ)
    (h : i ∉ st.indices) (n : ℕ) : i ∉ (marchIter a st n).indices :=
  fun hmem => h ((marchIter_sublist_init a st n).subset hmem)

theorem marchIter_mask_getD_of_not_mem {κ : Type} (a : StepArgs κ) (st : MarchState)
    (i : ℕ) (h : i ∉ st.indices) :
    ∀ n : ℕ, (marchIter a st n).mask.getD i false = st.mask.getD i false
  | 0 => rfl
  | n + 1 =>
    (marchStep_mask_getD_of_not_mem a _ i (marchIter_not_mem a st i h n)).trans
      (marchIter_mask_getD_of_not_mem a st i h n)

theorem marchIter_shift {κ : Type} (a : StepArgs κ) (st : MarchState) :
    ∀ k : ℕ, marchIter a (marchStep a st) k = marchIter a st (k + 1)
  | 0 => rfl
  | k + 1 => by
    rw [marchIter_succ, marchIter_shift a st k]
    rfl

theorem marchLoop_iters_le {κ : Type} (a : StepArgs κ) :
    ∀ (fuel : ℕ) (st : MarchState), (marchLoop a fuel st).iters ≤ fuel
  | 0, _ => Nat.le_refl 0
  | n + 1, st => by
    rw [marchLoop]
    by_cases h : (marchStep a st).indices.length < 2
    · simp only [h, if_pos]
      exact Nat.le_add_left 1 n
    · simp only [h, if_neg, not_false_iff]
      exact Nat.succ_le_succ (marchLoop_iters_le a n _)

theorem marchLoop_state_eq {κ : Type} (a : StepArgs κ) :
    ∀ (fuel : ℕ) (st : MarchState),
      (marchLoop a fuel st).state = marchIter a st (marchLoop a fuel st).iters
  | 0, _ => rfl
  | n + 1, st => by
    rw [marchLoop]
    by_cases h : (marchStep a st).indices.length < 2
    · simp only [h, if_pos]
      rfl
    · simp only [h, if_neg, not_false_iff]
      have := marchLoop_state_eq a n (marchStep a st)
      rw [this, marchIter_shift a st]

theorem marchLoop_queries_eq {κ : Type} (a : StepArgs κ) :
    ∀ (fuel : ℕ) (st : MarchState),
      (marchLoop a fuel st).queries =
        (List.range (marchLoop a fuel st).iters).map (fun k => (marchIter a st k).indices)
  | 0, _ => rfl
  | n + 1, st => by
    rw [marchLoop]
    by_cases h : (marchStep a st).indices.length < 2
    · simp only [h, if_pos]
      rfl
    · simp only [h, if_neg, not_false_iff]
      have hq := marchLoop_queries_eq a n (marchStep a st)
      simp only [hq, List.range_succ_eq_map, List.map_cons, List.map_map]
      congr 1
      apply List.map_congr_left
      intro k _
      simp only [Function.comp_apply]
      exact congrArg MarchState.indices (marchIter_shift a st k)

theorem marchLoop_iters_pos {κ : Type} (a : StepArgs κ) (fuel : ℕ) (st : MarchState)
    (h : 1 ≤ fuel) : 1 ≤ (marchLoop a fuel st).iters := by
  cases fuel with
  | zero => exact absurd h (by simp)
  | succ n =>
    rw [marchLoop]
    by_cases hc : (marchStep a st).indices.length < 2
    · simp [hc]
    · simp only [hc, if_neg, not_false_iff]
      exact Nat.le_add_left 1 _

theorem marchLoop_early {κ : Type} (a : StepArgs κ) (n : ℕ) (st : MarchState)
    (h : (marchStep a st).indices.length < 2) :
    marchLoop a (n + 1) st = ⟨marchStep a st, true, 1, [st.indices]⟩ := by
  rw [marchLoop]
  simp [h]

theorem marchLoop_of_empty {κ : Type} (a : StepArgs κ) (n : ℕ) (st : MarchState)
    (h : st.indices = []) :
    marchLoop a (n + 1) st = ⟨marchStep a st, true, 1, [st.indices]⟩ := by
  have h1 : (marchStep a st).indices = [] :=
    List.sublist_nil.mp (h ▸ marchStep_indices_sublist a st)
  rw [marchLoop]
  simp [h1]

theorem chunks_decomp {α : Type} (b : ℕ) (pts : List α) :
    ∀ k : ℕ,
      ((List.range k).flatMap (fun i => (pts.drop (b * i)).take b)) ++ pts.drop (b * k) = pts
  | 0 => by simp
  | k + 1 => by
    have h2 : pts.drop (b * k) = (pts.drop (b * k)).take b ++ pts.drop (b * (k + 1)) := by
      rw [Nat.mul_succ, ← List.drop_drop, List.take_append_drop]
    rw [List.range_succ, List.flatMap_append, List.append_assoc]
    simp only [List.flatMap_cons, List.flatMap_nil, List.append_nil]
    rw [← h2]
    exact chunks_decomp b pts k

theorem getSdf_eq_map {κ : Type} (forward : List Vec3 → List κ → List ℚ) (f : Vec3 → ℚ)
    (codes : List κ) (pts : List Vec3)
    (hf : ∀ (ps : List Vec3) (cs : List κ), cs.length = ps.length → forward ps cs = ps.map f)
    (hcodes : min pts.length BATCH_SIZE ≤ codes.length) :
    getSdf forward pts codes = pts.map f := by
  have hB : 0 < BATCH_SIZE := by decide
  have hdm := Nat.div_add_mod pts.length BATCH_SIZE
  have hmlt : pts.length % BATCH_SIZE < BATCH_SIZE := Nat.mod_lt _ hB
  have hmle : pts.length % BATCH_SIZE ≤ pts.length := Nat.mod_le _ _
  have hms : BATCH_SIZE * (pts.length / BATCH_SIZE) ≤ pts.length := by
    rw [Nat.mul_comm]
    exact Nat.div_mul_le_self pts.length BATCH_SIZE
  rw [show getSdf forward pts codes =
      ((List.range (pts.length / BATCH_SIZE)).flatMap (fun i =>
        forward ((pts.drop (BATCH_SIZE * i)).take BATCH_SIZE) (codes.take BATCH_SIZE)))
      ++ forward (pts.drop (BATCH_SIZE * (pts.length / BATCH_SIZE)))
          (codes.take (pts.length - BATCH_SIZE * (pts.length / BATCH_SIZE))) from rfl]
  have hfull : ∀ i ∈ List.range (pts.length / BATCH_SIZE),
      forward ((pts.drop (BATCH_SIZE * i)).take BATCH_SIZE) (codes.take BATCH_SIZE)
        = ((pts.drop (BATCH_SIZE * i)).take BATCH_SIZE).map f := by
    intro i hi
    have hi2 : i < pts.length / BATCH_SIZE := List.mem_range.mp hi
    have hBn : BATCH_SIZE ≤ pts.length := by
      have h1 : 1 ≤ pts.length / BATCH_SIZE := by omega
      have h3 : BATCH_SIZE * 1 ≤ BATCH_SIZE * (pts.length / BATCH_SIZE) :=
        Nat.mul_le_mul_left _ h1
      omega
    have hchunk : BATCH_SIZE * i + BATCH_SIZE ≤ pts.length := by
      have h1 : BATCH_SIZE * (i + 1) ≤ BATCH_SIZE * (pts.length / BATCH_SIZE) :=
        Nat.mul_le_mul_left _ hi2
      rw [Nat.mul_succ] at h1
      omega
    have hBc : BATCH_SIZE ≤ codes.length := le_trans (by omega) hcodes
    apply hf
    rw [List.length_take, List.length_take, List.length_drop]
    omega
  have hrem : forward (pts.drop (BATCH_SIZE * (pts.length / BATCH_SIZE)))
      (codes.take (pts.length - BATCH_SIZE * (pts.length / BATCH_SIZE)))
        = (pts.drop (BATCH_SIZE * (pts.length / BATCH_SIZE))).map f := by
    apply hf
    have h1 : pts.length - BATCH_SIZE * (pts.length / BATCH_SIZE) ≤ codes.length :=
      le_trans (by omega) hcodes
    rw [List.length_take, List.length_drop]
    omega
  rw [List.flatMap_congr hfull, hrem, ← List.map_flatMap, ← List.map_append,
    chunks_decomp]

theorem getNormals_eq_map {κ : Type} (normalsFn : κ → List Vec3 → List Vec3)
    (g : Vec3 → Vec3) (codeRow : κ) (pts : List Vec3)
    (hg : ∀ ps : List Vec3, normalsFn codeRow ps = ps.map g) :
    getNormals normalsFn pts codeRow = pts.map g := by
  rw [show getNormals normalsFn pts codeRow =
      ((List.range (pts.length / BATCH_SIZE)).flatMap (fun i =>
        normalsFn codeRow ((pts.drop (BATCH_SIZE * i)).take BATCH_SIZE)))
      ++ normalsFn codeRow (pts.drop (BATCH_SIZE * (pts.length / BATCH_SIZE))) from rfl]
  have hfull : ∀ i ∈ List.range (pts.length / BATCH_SIZE),
      normalsFn codeRow ((pts.drop (BATCH_SIZE * i)).take BATCH_SIZE)
        = ((pts.drop (BATCH_SIZE * i)).take BATCH_SIZE).map g :=
    fun i _ => hg _
  rw [List.flatMap_congr hfull, hg, ← List.map_flatMap, ← List.map_append,
    chunks_decomp]

theorem maskSelect_eq_nil {α : Type} (xs : List α) (mask : List Bool)
    (h : ∀ b ∈ mask, b = false) : maskSelect xs mask = [] := by
  have h1 : (xs.zip mask).filter (fun p => p.2) = [] := by
    refine List.filter_eq_nil_iff.mpr ?_
    intro p hp
    have h2 := (List.of_mem_zip hp).2
    simp [h _ h2]
  rw [maskSelect, h1, List.map_nil]

theorem getShadows_nil {κ : Type} (forward : List Vec3 → List κ → List ℚ)
    (lightPos : Vec3) (codeRow : κ) (sqrtFn : ℚ → ℚ) (thr radius : ℚ) :
    getShadows forward [] lightPos codeRow sqrtFn thr radius = none := rfl

theorem cross_v0 (a : Vec3) : cross a v0 = v0 := by
  simp [cross, v0]

theorem vsmul_v0 (q : ℚ) : q • v0 = v0 := by
  show vsmul q v0 = v0
  simp [vsmul, v0]

theorem v0_vadd (v : Vec3) : v0 + v = v := by
  show vadd v0 v = v
  simp [vadd, v0]

theorem screenGrid_length (m : ℕ) : (screenGrid m).length = m * m := by
  rw [screenGrid, List.length_flatMap]
  have h1 : ((List.range m).map
      (List.length ∘ fun i =>
        (List.range m).map (fun j => ((linspaceQ m).getD j 0, (linspaceQ m).getD i 0))))
      = (List.range m).map (fun _ => m) := by
    apply List.map_congr_left
    intro i _
    simp
  rw [h1, List.map_const', List.sum_replicate, List.length_range, smul_eq_mul]

theorem primaryInit_indices (sqrtFn : ℚ → ℚ) (camPos : Vec3) (resolution : ℕ)
    (focal : ℚ) (ssaa : ℕ) (radius : ℚ) :
    (primaryInit sqrtFn camPos resolution focal ssaa radius).state.indices =
      (List.range (resolution * ssaa * (resolution * ssaa))).filter
        (fun i => decide
          (0 ≤ (primaryInit sqrtFn camPos resolution focal ssaa radius).discs.getD i (-1))) :=
  rfl

theorem primaryInit_mask (sqrtFn : ℚ → ℚ) (camPos : Vec3) (resolution : ℕ)
    (focal : ℚ) (ssaa : ℕ) (radius : ℚ) :
    (primaryInit sqrtFn camPos resolution focal ssaa radius).state.mask =
      List.replicate (resolution * ssaa * (resolution * ssaa)) false := rfl

theorem primaryInit_mem_lt (sqrtFn : ℚ → ℚ) (camPos : Vec3) (resolution : ℕ)
    (focal : ℚ) (ssaa : ℕ) (radius : ℚ) :
    ∀ i ∈ (primaryInit sqrtFn camPos resolution focal ssaa radius).state.indices,
      i < (primaryInit sqrtFn camPos resolution focal ssaa radius).state.mask.length := by
  intro i hi
  rw [primaryInit_indices] at hi
  rw [primaryInit_mask, List.length_replicate]
  exact List.mem_range.mp (List.mem_of_mem_filter hi)

/-- C6: in every iteration of both marching loops (the shared body
marchStep, instantiated with shadowArgs by get_shadows and with
primaryArgs by get_image), the active index list of the next iteration
is a sublist of the current one, stays duplicate-free, references only
in-bounds rays, never grows, and an index absent at iteration n stays
absent at every later iteration. -/
theorem claim_c6_active_set_invariant {κ : Type} (a : StepArgs κ) (st : MarchState)
    (hnd : st.indices.Nodup) (hb : ∀ i ∈ st.indices, i < st.points.length) (n : ℕ) :
    (marchIter a st (n + 1)).indices.Sublist (marchIter a st n).indices
    ∧ (marchIter a st n).indices.Nodup
    ∧ (∀ i ∈ (marchIter a st n).indices, i < (marchIter a st n).points.length)
    ∧ (marchIter a st (n + 1)).indices.length ≤ (marchIter a st n).indices.length
    ∧ (∀ i m, i ∉ (marchIter a st n).indices → n ≤ m →
        i ∉ (marchIter a st m).indices) := by
  refine ⟨marchIter_sublist_succ a st n, marchIter_nodup a st hnd n, ?_,
    (marchIter_sublist_succ a st n).length_le, ?_⟩
  · intro i hi
    rw [marchIter_points_length]
    exact hb i ((marchIter_sublist_init a st n).subset hi)
  · intro i m hni hnm hm
    exact hni ((marchIter_sublist_le a st hnm).subset hm)

/-- Witness for C6: the invariant evaluated at the demo shadow
configuration, iterations 2 and 3. -/
theorem claim_c6_witness :
    (marchIter shadowDemoArgs shadowDemoState 3).indices.Sublist
        (marchIter shadowDemoArgs shadowDemoState 2).indices
    ∧ (marchIter shadowDemoArgs shadowDemoState 2).indices.Nodup :=
  have h := claim_c6_active_set_invariant shadowDemoArgs shadowDemoState
    (by decide) (by decide) 2
  ⟨h.1, h.2.1⟩

/-- C3: in get_image's primary marching pass, whenever the loop ends
(early exit or exhausted budget alike), every ray still in the active
set is set in the hit mask by the force-classification of line 144. -/
theorem claim_c3_force_hit {κ : Type} (forward : List Vec3 → List κ → List ℚ)
    (codeRow : κ) (sqrtFn : ℚ → ℚ) (camPos : Vec3) (resolution : ℕ)
    (focal thr : ℚ) (iterations ssaa : ℕ) (radius : ℚ) :
    ∀ i ∈ (primaryMarch forward codeRow sqrtFn camPos resolution focal thr
        iterations ssaa radius).run.state.indices,
      (primaryMarch forward codeRow sqrtFn camPos resolution focal thr
        iterations ssaa radius).mask.getD i false = true := by
  intro i hi
  have hrun : (primaryMarch forward codeRow sqrtFn camPos resolution focal thr
      iterations ssaa radius).run
      = marchLoop (primaryArgs forward codeRow sqrtFn camPos resolution focal thr ssaa radius)
          iterations (primaryInit sqrtFn camPos resolution focal ssaa radius).state := rfl
  have hmask : (primaryMarch forward codeRow sqrtFn camPos resolution focal thr
      iterations ssaa radius).mask
      = setTrueAt
          (marchLoop (primaryArgs forward codeRow sqrtFn camPos resolution focal thr ssaa radius)
            iterations (primaryInit sqrtFn camPos resolution focal ssaa radius).state).state.mask
          (marchLoop (primaryArgs forward codeRow sqrtFn camPos resolution focal thr ssaa radius)
            iterations (primaryInit sqrtFn camPos resolution focal ssaa radius).state).state.indices :=
    rfl
  rw [hmask]
  rw [hrun] at hi
  have hstate := marchLoop_state_eq
    (primaryArgs forward codeRow sqrtFn camPos resolution focal thr ssaa radius)
    iterations (primaryInit sqrtFn camPos resolution focal ssaa radius).state
  apply getD_setTrueAt_mem _ _ _ hi
  rw [hstate, marchIter_mask_length]
  rw [hstate] at hi
  exact primaryInit_mem_lt sqrtFn camPos resolution focal ssaa radius i
    ((marchIter_sublist_init _ _ _).subset hi)

/-- Witness for C3: the demo straight-down camera leaves ray 0 active at
loop exit, and the final mask classifies it as a hit. -/
theorem claim_c3_witness :
    0 ∈ (primaryMarch forwardBig () sqrtDemo ⟨0, 2, 0⟩ 1 (7 / 4) (1 / 2000)
        100 1 1).run.state.indices
    ∧ (primaryMarch forwardBig () sqrtDemo ⟨0, 2, 0⟩ 1 (7 / 4) (1 / 2000)
        100 1 1).mask.getD 0 false = true := by
  have hS : (primaryInit sqrtDemo ⟨0, 2, 0⟩ 1 (7 / 4) 1 1).state
      = ⟨[⟨0, 1, 0⟩], [false], [0]⟩ := by
    norm_num [primaryInit, cameraBasis, rayDirections, screenGrid, linspaceQ,
      normalizeV, normSq, dot, cross, sqrtDemo, v0, List.range_succ, List.getD]
  have hstep : marchStep (primaryArgs forwardBig () sqrtDemo ⟨0, 2, 0⟩ 1 (7 / 4) (1 / 2000) 1 1)
      ⟨[⟨0, 1, 0⟩], [false], [0]⟩ = ⟨[⟨0, 49 / 50, 0⟩], [false], [0]⟩ := by
    norm_num [marchStep, primaryArgs, primaryInit, cameraBasis, rayDirections, screenGrid,
      linspaceQ, normalizeV, normSq, dot, cross, sqrtDemo, v0, List.range_succ, List.getD,
      getSdf, BATCH_SIZE, forwardBig, clampQ, updatePoints, setTrueAt]
  have h1 : (marchStep (primaryArgs forwardBig () sqrtDemo ⟨0, 2, 0⟩ 1 (7 / 4) (1 / 2000) 1 1)
      (primaryInit sqrtDemo ⟨0, 2, 0⟩ 1 (7 / 4) 1 1).state).indices = [0] := by
    rw [hS, hstep]
  have h3 := marchLoop_early
    (primaryArgs forwardBig () sqrtDemo ⟨0, 2, 0⟩ 1 (7 / 4) (1 / 2000) 1 1) 99
    (primaryInit sqrtDemo ⟨0, 2, 0⟩ 1 (7 / 4) 1 1).state (by rw [h1]; decide)
  refine ⟨?_, claim_c3_force_hit forwardBig () sqrtDemo ⟨0, 2, 0⟩ 1 (7 / 4) (1 / 2000)
    100 1 1 0 ?_⟩ <;>
  · rw [show (primaryMarch forwardBig () sqrtDemo ⟨0, 2, 0⟩ 1 (7 / 4) (1 / 2000)
        100 1 1).run.state.indices
        = (marchLoop (primaryArgs forwardBig () sqrtDemo ⟨0, 2, 0⟩ 1 (7 / 4) (1 / 2000) 1 1)
          (99 + 1) (primaryInit sqrtDemo ⟨0, 2, 0⟩ 1 (7 / 4) 1 1).state).state.indices from rfl]
    rw [h3]
    exact (by rw [h1]; decide :
      0 ∈ (marchStep (primaryArgs forwardBig () sqrtDemo ⟨0, 2, 0⟩ 1 (7 / 4) (1 / 2000) 1 1)
        (primaryInit sqrtDemo ⟨0, 2, 0⟩ 1 (7 / 4) 1 1).state).indices)

/-- C5: a ray whose bounding-sphere discriminant is negative (so its
intersection distance is the non-finite sqrt of a negative number) is
never placed in the initial active set, is absent from the active set of
every iteration and from every oracle query batch of the pass, and its
hit-mask entry is still false after the final force-classification. -/
theorem claim_c5_negative_disc_missed {κ : Type} (forward : List Vec3 → List κ → List ℚ)
    (codeRow : κ) (sqrtFn : ℚ → ℚ) (camPos : Vec3) (resolution : ℕ)
    (focal thr : ℚ) (iterations ssaa : ℕ) (radius : ℚ) (i : ℕ)
    (hdisc : (primaryInit sqrtFn camPos resolution focal ssaa radius).discs.getD i (-1) < 0) :
    i ∉ (primaryInit sqrtFn camPos resolution focal ssaa radius).state.indices
    ∧ (∀ k, i ∉ (marchIter
        (primaryArgs forward codeRow sqrtFn camPos resolution focal thr ssaa radius)
        (primaryInit sqrtFn camPos resolution focal ssaa radius).state k).indices)
    ∧ (∀ q ∈ (primaryMarch forward codeRow sqrtFn camPos resolution focal thr
        iterations ssaa radius).run.queries, i ∉ q)
    ∧ (primaryMarch forward codeRow sqrtFn camPos resolution focal thr
        iterations ssaa radius).mask.getD i false = false := by
  have hnot : i ∉ (primaryInit sqrtFn camPos resolution focal ssaa radius).state.indices := by
    intro hmem
    rw [primaryInit_indices] at hmem
    exact absurd (of_decide_eq_true ((List.mem_filter.mp hmem).2)) (not_le.mpr hdisc)
  have hrun : (primaryMarch forward codeRow sqrtFn camPos resolution focal thr
      iterations ssaa radius).run
      = marchLoop (primaryArgs forward codeRow sqrtFn camPos resolution focal thr ssaa radius)
          iterations (primaryInit sqrtFn camPos resolution focal ssaa radius).state := rfl
  refine ⟨hnot, fun k => marchIter_not_mem _ _ _ hnot k, ?_, ?_⟩
  · intro q hq
    rw [hrun, marchLoop_queries_eq] at hq
    obtain ⟨k, _, hk⟩ := List.mem_map.mp hq
    rw [← hk]
    exact marchIter_not_mem _ _ _ hnot k
  · have hmask : (primaryMarch forward codeRow sqrtFn camPos resolution focal thr
        iterations ssaa radius).mask
        = setTrueAt
            (marchLoop (primaryArgs forward codeRow sqrtFn camPos resolution focal thr ssaa radius)
              iterations (primaryInit sqrtFn camPos resolution focal ssaa radius).state).state.mask
            (marchLoop (primaryArgs forward codeRow sqrtFn camPos resolution focal thr ssaa radius)
              iterations (primaryInit sqrtFn camPos resolution focal ssaa radius).state).state.indices :=
      rfl
    have hstate := marchLoop_state_eq
      (primaryArgs forward codeRow sqrtFn camPos resolution focal thr ssaa radius)
      iterations (primaryInit sqrtFn camPos resolution focal ssaa radius).state
    rw [hmask, hstate]
    rw [getD_setTrueAt_not_mem _ _ _ (marchIter_not_mem _ _ _ hnot _)]
    rw [marchIter_mask_getD_of_not_mem _ _ _ hnot]
    rw [primaryInit_mask]
    simp only [List.getD_eq_getElem?_getD, List.getElem?_replicate]
    split <;> rfl

/-- Witness for C5: the demo tilted camera's single ray has a negative
discriminant, never enters the active set, and ends unclassified. -/
theorem claim_c5_witness :
    (primaryInit sqrtDemo ⟨0, 0, -2⟩ 1 (1 / 2) 1 1).discs.getD 0 (-1) < 0
    ∧ 0 ∉ (primaryInit sqrtDemo ⟨0, 0, -2⟩ 1 (1 / 2) 1 1).state.indices
    ∧ 0 ∉ (marchIter (primaryArgs forwardBig () sqrtDemo ⟨0, 0, -2⟩ 1 (1 / 2) (1 / 2000) 1 1)
        (primaryInit sqrtDemo ⟨0, 0, -2⟩ 1 (1 / 2) 1 1).state 3).indices
    ∧ (primaryMarch forwardBig () sqrtDemo ⟨0, 0, -2⟩ 1 (1 / 2) (1 / 2000)
        1000 1 1).mask.getD 0 false = false :=
  have h := claim_c5_negative_disc_missed forwardBig () sqrtDemo ⟨0, 0, -2⟩ 1 (1 / 2)
    (1 / 2000) 1000 1 1 0 (by with_unfolding_all decide)
  ⟨by with_unfolding_all decide, h.1, h.2.1 3, h.2.2.2⟩

theorem codes_cover_subBatches {κ : Type} (a : StepArgs κ) (st : MarchState)
    (hcodes : a.codes.length = min st.indices.length BATCH_SIZE) (k : ℕ) :
    (marchIter a st k).indices.length ≤ st.indices.length
    ∧ ∀ s ∈ subBatchSizes (marchIter a st k).indices.length,
        s ≤ a.codes.length ∧ (a.codes.take s).length = s := by
  have hle : (marchIter a st k).indices.length ≤ st.indices.length :=
    (marchIter_sublist_init a st k).length_le
  refine ⟨hle, ?_⟩
  intro s hs
  have hB : 0 < BATCH_SIZE := by decide
  have hsle : s ≤ min st.indices.length BATCH_SIZE := by
    rcases List.mem_append.mp hs with h | h
    · obtain ⟨hne, hsB⟩ := List.mem_replicate.mp h
      subst hsB
      have h1 : 1 ≤ (marchIter a st k).indices.length / BATCH_SIZE :=
        Nat.one_le_iff_ne_zero.mpr hne
      have h3 := Nat.mul_le_mul_left BATCH_SIZE h1
      have h4 : BATCH_SIZE * ((marchIter a st k).indices.length / BATCH_SIZE)
          ≤ (marchIter a st k).indices.length := by
        rw [Nat.mul_comm]
        exact Nat.div_mul_le_self _ BATCH_SIZE
      omega
    · have hs2 : s = (marchIter a st k).indices.length % BATCH_SIZE := by simpa using h
      subst hs2
      have h1 := Nat.mod_le (marchIter a st k).indices.length BATCH_SIZE
      have h2 := Nat.mod_lt (marchIter a st k).indices.length hB
      omega
  constructor
  · rw [hcodes]
    omega
  · rw [List.length_take, hcodes]
    omega

/-- C10: in both marching passes the latent code batch, built once with
min(initial active count, BATCH_SIZE) rows, covers every oracle
sub-batch of every later iteration: the active count never exceeds the
initial count, and every sub-batch size s (full batches of BATCH_SIZE
and the remainder) finds at least s code rows, the taken prefix pairing
each queried point with exactly one row. -/
theorem claim_c10_latent_rows {κ : Type} (forward : List Vec3 → List κ → List ℚ)
    (codeRow : κ) (sqrtFn : ℚ → ℚ) (pts : List Vec3) (lightPos camPos : Vec3)
    (resolution : ℕ) (focal thr : ℚ) (ssaa : ℕ) (radius : ℚ) (k : ℕ) :
    ((marchIter (shadowArgs forward pts lightPos codeRow sqrtFn thr radius)
        (shadowState sqrtFn pts lightPos) k).indices.length ≤ pts.length
      ∧ ∀ s ∈ subBatchSizes (marchIter (shadowArgs forward pts lightPos codeRow sqrtFn thr radius)
          (shadowState sqrtFn pts lightPos) k).indices.length,
          s ≤ (shadowArgs forward pts lightPos codeRow sqrtFn thr radius).codes.length
          ∧ ((shadowArgs forward pts lightPos codeRow sqrtFn thr radius).codes.take s).length = s)
    ∧ ((marchIter (primaryArgs forward codeRow sqrtFn camPos resolution focal thr ssaa radius)
        (primaryInit sqrtFn camPos resolution focal ssaa radius).state k).indices.length
          ≤ (primaryInit sqrtFn camPos resolution focal ssaa radius).state.indices.length
      ∧ ∀ s ∈ subBatchSizes (marchIter
          (primaryArgs forward codeRow sqrtFn camPos resolution focal thr ssaa radius)
          (primaryInit sqrtFn camPos resolution focal ssaa radius).state k).indices.length,
          s ≤ (primaryArgs forward codeRow sqrtFn camPos resolution focal thr ssaa radius).codes.length
          ∧ ((primaryArgs forward codeRow sqrtFn camPos resolution focal thr ssaa radius).codes.take
              s).length = s) := by
  constructor
  · have hcodes : (shadowArgs forward pts lightPos codeRow sqrtFn thr radius).codes.length
        = min (shadowState sqrtFn pts lightPos).indices.length BATCH_SIZE := by
      simp [shadowArgs, shadowState]
    have h := codes_cover_subBatches (shadowArgs forward pts lightPos codeRow sqrtFn thr radius)
      (shadowState sqrtFn pts lightPos) hcodes k
    refine ⟨?_, h.2⟩
    have h1 : (shadowState sqrtFn pts lightPos).indices.length = pts.length := by
      simp [shadowState]
    rw [← h1]
    exact h.1
  · have hcodes : (primaryArgs forward codeRow sqrtFn camPos resolution focal thr ssaa radius).codes.length
        = min (primaryInit sqrtFn camPos resolution focal ssaa radius).state.indices.length
            BATCH_SIZE := by
      simp [primaryArgs]
    exact codes_cover_subBatches _ _ hcodes k

/-- Witness for C10 at the demo shadow configuration, iteration 0 and
sub-batch size 1 (the remainder batch of the single-point request). -/
theorem claim_c10_witness :
    (marchIter (shadowArgs forwardBig [⟨0, 0, 0⟩] ⟨0, 3, 0⟩ () sqrtDemo (1 / 1000) 1)
        (shadowState sqrtDemo [⟨0, 0, 0⟩] ⟨0, 3, 0⟩) 0).indices.length ≤ 1
    ∧ ((shadowArgs forwardBig [⟨0, 0, 0⟩] ⟨0, 3, 0⟩ () sqrtDemo (1 / 1000) 1).codes.take 1).length
        = 1 :=
  have h := claim_c10_latent_rows forwardBig () sqrtDemo [⟨0, 0, 0⟩] ⟨0, 3, 0⟩ ⟨0, 2, 0⟩
    1 (7 / 4) (1 / 1000) 1 1 0
  ⟨h.1.1, (h.1.2 1 (by decide)).2⟩

/-- C7: under a pointwise oracle (each point's result independent of the
rest of its batch, one latent row per point), the batching adapters
get_sdf and get_normals return exactly the pointwise map over the input:
one entry per input point, concatenated in original order across the
sub-batches of at most BATCH_SIZE points. -/
theorem claim_c7_adapter_pointwise {κ : Type} (forward : List Vec3 → List κ → List ℚ)
    (normalsFn : κ → List Vec3 → List Vec3) (f : Vec3 → ℚ) (g : Vec3 → Vec3)
    (codeRow : κ) (codes : List κ) (pts : List Vec3)
    (hf : ∀ (ps : List Vec3) (cs : List κ), cs.length = ps.length → forward ps cs = ps.map f)
    (hg : ∀ ps : List Vec3, normalsFn codeRow ps = ps.map g)
    (hcodes : min pts.length BATCH_SIZE ≤ codes.length) :
    getSdf forward pts codes = pts.map f
    ∧ getNormals normalsFn pts codeRow = pts.map g :=
  ⟨getSdf_eq_map forward f codes pts hf hcodes,
    getNormals_eq_map normalsFn g codeRow pts hg⟩

/-- Witness for C7: both adapters applied to the concrete two-point
batch with a pointwise demo oracle. -/
theorem claim_c7_witness :
    getSdf fwdX ptsDemo [(), ()] = ptsDemo.map Vec3.x
    ∧ getNormals nrmId ptsDemo () = ptsDemo.map (fun p => p) :=
  claim_c7_adapter_pointwise fwdX nrmId Vec3.x (fun p => p) () [(), ()] ptsDemo
    (fun _ _ _ => rfl) (fun _ => rfl) (by decide)

/-- C8: the shading of get_image equals the spec's formula (diffuse,
reflected specular with exponent 20, rim light, composed and clamped),
and on the fixture normal (0,1,0), light (0,1,0), view (0,-1,0),
unshadowed, it equals baseColor + 0.3 clamped, which is (1, 2/5, 2/5). -/
theorem claim_c8_shading_formula (sqrtFn : ℚ → ℚ) (normal lightDir viewDir : Vec3)
    (shadowed : Bool) (h1 : sqrtFn 1 = 1) :
    shadePoint sqrtFn normal lightDir viewDir (1 - (if shadowed then 1 else 0))
        = shadeSpec sqrtFn normal lightDir viewDir shadowed
    ∧ shadePoint sqrtFn ⟨0, 1, 0⟩ ⟨0, 1, 0⟩ ⟨0, -1, 0⟩ 1
        = clampVec 0 1 (baseColor + ⟨3 / 10, 3 / 10, 3 / 10⟩)
    ∧ shadePoint sqrtFn ⟨0, 1, 0⟩ ⟨0, 1, 0⟩ ⟨0, -1, 0⟩ 1 = ⟨1, 2 / 5, 2 / 5⟩ := by
  have h2 : normSq ((⟨0, 1, 0⟩ : Vec3) - (dot ⟨0, 1, 0⟩ ⟨0, 1, 0⟩ * 2) • ⟨0, 1, 0⟩) = 1 := by
    norm_num [normSq, dot]
  refine ⟨?_, ?_, ?_⟩
  · simp only [shadePoint, shadeSpec]
    rw [mul_comm (dot lightDir normal) 2]
  · simp only [shadePoint, normalizeV, h2, h1]
    norm_num [clampVec, clampQ, baseColor, dot]
  · simp only [shadePoint, normalizeV, h2, h1]
    norm_num [clampVec, clampQ, baseColor, dot]

/-- Witness for C8 at the concrete square-root table, unshadowed. -/
theorem claim_c8_witness :
    shadePoint sqrtDemo ⟨0, 1, 0⟩ ⟨0, 1, 0⟩ ⟨0, -1, 0⟩ (1 - (if false then 1 else 0))
        = shadeSpec sqrtDemo ⟨0, 1, 0⟩ ⟨0, 1, 0⟩ ⟨0, -1, 0⟩ false
    ∧ shadePoint sqrtDemo ⟨0, 1, 0⟩ ⟨0, 1, 0⟩ ⟨0, -1, 0⟩ 1 = ⟨1, 2 / 5, 2 / 5⟩ :=
  have h := claim_c8_shading_formula sqrtDemo ⟨0, 1, 0⟩ ⟨0, 1, 0⟩ ⟨0, -1, 0⟩ false
    (by norm_num [sqrtDemo])
  ⟨h.1, h.2.2⟩

theorem marchStep_of_empty {κ : Type} (a : StepArgs κ) (pts : List Vec3) (mask : List Bool) :
    marchStep a ⟨pts, mask, []⟩ = ⟨pts, mask, []⟩ := rfl

theorem shadowMarchRun_of_nil {κ : Type} (forward : List Vec3 → List κ → List ℚ)
    (lightPos : Vec3) (codeRow : κ) (sqrtFn : ℚ → ℚ) (thr radius : ℚ) :
    (shadowMarchRun forward [] lightPos codeRow sqrtFn thr radius).iters = 1
    ∧ (shadowMarchRun forward [] lightPos codeRow sqrtFn thr radius).queries = [[]] :=
  ⟨rfl, rfl⟩

theorem primaryMarch_run_of_empty {κ : Type} (forward : List Vec3 → List κ → List ℚ)
    (codeRow : κ) (sqrtFn : ℚ → ℚ) (camPos : Vec3) (resolution : ℕ) (focal thr : ℚ)
    (iterations ssaa : ℕ) (radius : ℚ)
    (hidx : (primaryInit sqrtFn camPos resolution focal ssaa radius).state.indices = [])
    (hit : 1 ≤ iterations) :
    (primaryMarch forward codeRow sqrtFn camPos resolution focal thr iterations ssaa radius).run
      = ⟨marchStep (primaryArgs forward codeRow sqrtFn camPos resolution focal thr ssaa radius)
          (primaryInit sqrtFn camPos resolution focal ssaa radius).state, true, 1, [[]]⟩ := by
  obtain ⟨n, rfl⟩ : ∃ n, iterations = n + 1 := ⟨iterations - 1, by omega⟩
  have hloop := marchLoop_of_empty
    (primaryArgs forward codeRow sqrtFn camPos resolution focal thr ssaa radius) n
    (primaryInit sqrtFn camPos resolution focal ssaa radius).state hidx
  rw [show (primaryMarch forward codeRow sqrtFn camPos resolution focal thr (n + 1) ssaa radius).run
      = marchLoop (primaryArgs forward codeRow sqrtFn camPos resolution focal thr ssaa radius)
          (n + 1) (primaryInit sqrtFn camPos resolution focal ssaa radius).state from rfl]
  rw [hloop, hidx]

theorem primaryMarch_mask_of_empty {κ : Type} (forward : List Vec3 → List κ → List ℚ)
    (codeRow : κ) (sqrtFn : ℚ → ℚ) (camPos : Vec3) (resolution : ℕ) (focal thr : ℚ)
    (iterations ssaa : ℕ) (radius : ℚ)
    (hidx : (primaryInit sqrtFn camPos resolution focal ssaa radius).state.indices = [])
    (hit : 1 ≤ iterations) :
    (primaryMarch forward codeRow sqrtFn camPos resolution focal thr iterations ssaa radius).mask
      = (primaryInit sqrtFn camPos resolution focal ssaa radius).state.mask := by
  have hrun := primaryMarch_run_of_empty forward codeRow sqrtFn camPos resolution focal thr
    iterations ssaa radius hidx hit
  have hS : (primaryInit sqrtFn camPos resolution focal ssaa radius).state
      = ⟨(primaryInit sqrtFn camPos resolution focal ssaa radius).state.points,
          (primaryInit sqrtFn camPos resolution focal ssaa radius).state.mask, []⟩ := by
    rw [← hidx]
  rw [show (primaryMarch forward codeRow sqrtFn camPos resolution focal thr iterations ssaa
        radius).mask
      = setTrueAt (primaryMarch forward codeRow sqrtFn camPos resolution focal thr iterations
          ssaa radius).run.state.mask
          (primaryMarch forward codeRow sqrtFn camPos resolution focal thr iterations ssaa
            radius).run.state.indices from rfl]
  rw [hrun, hS, marchStep_of_empty]
  rfl

/-- C4 (amended): both marching loops execute at most their iteration
budget (200 shadow, `iterations` primary), and on an empty input batch
they execute exactly one iteration, issuing exactly one oracle query
whose batch is empty, before returning. -/
theorem claim_c4_termination {κ : Type} (forward : List Vec3 → List κ → List ℚ)
    (codeRow : κ) (sqrtFn : ℚ → ℚ) (pts : List Vec3) (lightPos camPos : Vec3)
    (resolution : ℕ) (focal thr : ℚ) (iterations ssaa : ℕ) (radius : ℚ) :
    (shadowMarchRun forward pts lightPos codeRow sqrtFn thr radius).iters ≤ 200
    ∧ (primaryMarch forward codeRow sqrtFn camPos resolution focal thr iterations ssaa
        radius).run.iters ≤ iterations
    ∧ (pts = [] →
        (shadowMarchRun forward pts lightPos codeRow sqrtFn thr radius).iters = 1
        ∧ (shadowMarchRun forward pts lightPos codeRow sqrtFn thr radius).queries = [[]])
    ∧ ((primaryInit sqrtFn camPos resolution focal ssaa radius).state.indices = [] →
        1 ≤ iterations →
        (primaryMarch forward codeRow sqrtFn camPos resolution focal thr iterations ssaa
          radius).run.iters = 1
        ∧ (primaryMarch forward codeRow sqrtFn camPos resolution focal thr iterations ssaa
          radius).run.queries = [[]]) := by
  refine ⟨marchLoop_iters_le _ 200 _, marchLoop_iters_le _ iterations _, ?_, ?_⟩
  · intro h
    subst h
    exact shadowMarchRun_of_nil forward lightPos codeRow sqrtFn thr radius
  · intro hidx hit
    have hrun := primaryMarch_run_of_empty forward codeRow sqrtFn camPos resolution focal thr
      iterations ssaa radius hidx hit
    rw [hrun]
    exact ⟨rfl, rfl⟩

theorem primaryInitDemoState :
    (primaryInit sqrtDemo ⟨0, 0, -2⟩ 1 (1 / 2) 1 1).state
      = ⟨[⟨0, 0, -2⟩], [false], []⟩ := by
  norm_num [primaryInit, cameraBasis, rayDirections, screenGrid, linspaceQ,
    normalizeV, normSq, dot, cross, sqrtDemo, v0, List.range_succ, List.getD]

/-- Counterexample for C4: on the empty batch the shadow loop performs
one iteration and one (empty) oracle query, not zero. -/
theorem claim_c4_counterexample :
    (shadowMarchRun forwardBig [] ⟨0, 3, 0⟩ () sqrtDemo (1 / 1000) 1).iters = 1
    ∧ (shadowMarchRun forwardBig [] ⟨0, 3, 0⟩ () sqrtDemo (1 / 1000) 1).queries = [[]] :=
  ⟨rfl, rfl⟩

/-- Witness for C4 at the demo configuration: the primary pass with an
empty initial active set executes exactly one iteration and issues one
empty oracle query. -/
theorem claim_c4_witness :
    (primaryMarch forwardBig () sqrtDemo ⟨0, 0, -2⟩ 1 (1 / 2) (1 / 2000)
        1000 1 1).run.iters = 1
    ∧ (primaryMarch forwardBig () sqrtDemo ⟨0, 0, -2⟩ 1 (1 / 2) (1 / 2000)
        1000 1 1).run.queries = [[]] :=
  have hidx : (primaryInit sqrtDemo ⟨0, 0, -2⟩ 1 (1 / 2) 1 1).state.indices = [] := by
    rw [primaryInitDemoState]
  (claim_c4_termination forwardBig () sqrtDemo [] ⟨0, 3, 0⟩ ⟨0, 0, -2⟩ 1 (1 / 2)
    (1 / 2000) 1000 1 1).2.2.2 hidx (by decide)

/-- C9 (amended): no degeneracy check exists; when the camera basis is
degenerate (cross of forward and the up reference is the zero vector),
ray generation still proceeds and produces the full grid of rays, all
with the same direction, the normalized focal multiple of forward. -/
theorem claim_c9_no_degeneracy_check (sqrtFn : ℚ → ℚ) (camPos : Vec3) (focal : ℚ) (m : ℕ)
    (h : (cameraBasis sqrtFn camPos).right = v0) :
    (rayDirections sqrtFn (cameraBasis sqrtFn camPos) focal m).length = m * m
    ∧ ∀ d ∈ rayDirections sqrtFn (cameraBasis sqrtFn camPos) focal m,
        d = normalizeV sqrtFn (focal • (cameraBasis sqrtFn camPos).forward) := by
  have hup : (cameraBasis sqrtFn camPos).up = v0 := by
    rw [show (cameraBasis sqrtFn camPos).up
        = cross (cameraBasis sqrtFn camPos).forward (cameraBasis sqrtFn camPos).right from rfl]
    rw [h, cross_v0]
  constructor
  · rw [rayDirections, List.length_map, screenGrid_length]
  · intro d hd
    rw [rayDirections] at hd
    obtain ⟨uv, _, hval⟩ := List.mem_map.mp hd
    rw [← hval, h, hup, vsmul_v0, vsmul_v0, v0_vadd, v0_vadd]

/-- Counterexample for C9: with the camera straight above the origin the
basis is degenerate (right is the zero vector), yet a ray is generated
and no error is raised before ray generation. -/
theorem claim_c9_counterexample :
    (cameraBasis sqrtDemo ⟨0, 2, 0⟩).right = v0
    ∧ rayDirections sqrtDemo (cameraBasis sqrtDemo ⟨0, 2, 0⟩) (7 / 4) 1 = [⟨0, -1, 0⟩] := by
  constructor <;>
    norm_num [cameraBasis, rayDirections, screenGrid, linspaceQ, normalizeV,
      normSq, dot, cross, sqrtDemo, v0, List.range_succ, List.getD]

/-- Witness for C9 at the demo degenerate camera. -/
theorem claim_c9_witness :
    (rayDirections sqrtDemo (cameraBasis sqrtDemo ⟨0, 2, 0⟩) (7 / 4) 1).length = 1
    ∧ (cameraBasis sqrtDemo ⟨0, 2, 0⟩).right = v0 :=
  have hr : (cameraBasis sqrtDemo ⟨0, 2, 0⟩).right = v0 := by
    norm_num [cameraBasis, cross, normSq, dot, sqrtDemo, v0]
  ⟨(claim_c9_no_degeneracy_check sqrtDemo ⟨0, 2, 0⟩ (7 / 4) 1 hr).1, hr⟩

theorem getImage_error_of_no_hits {κ : Type} (forward : List Vec3 → List κ → List ℚ)
    (normalsFn : κ → List Vec3 → List Vec3) (codeRow : κ) (sqrtFn : ℚ → ℚ)
    (camPos lightPos : Vec3) (resolution : ℕ) (focal thr : ℚ) (iterations ssaa : ℕ)
    (radius : ℚ)
    (h : ∀ b ∈ (primaryMarch forward codeRow sqrtFn camPos resolution focal thr iterations
        ssaa radius).mask, b = false) :
    getImage forward normalsFn codeRow sqrtFn camPos lightPos resolution focal thr
        iterations ssaa radius = Except.error RenderError.shadowFail := by
  have hsel : maskSelect (primaryMarch forward codeRow sqrtFn camPos resolution focal thr
      iterations ssaa radius).run.state.points
      (primaryMarch forward codeRow sqrtFn camPos resolution focal thr iterations ssaa
        radius).mask = [] :=
    maskSelect_eq_nil _ _ h
  simp only [getImage]
  rw [hsel, getShadows_nil]

/-- C2 (amended): when the primary marching pass produces no hit at all
(every entry of the hit mask is false, as in an all-miss scene), the
render does not complete: the shadow pass on the empty hit batch yields
no result and get_image fails with the shadow error instead of
producing pixels. -/
theorem claim_c2_all_miss_fails {κ : Type} (forward : List Vec3 → List κ → List ℚ)
    (normalsFn : κ → List Vec3 → List Vec3) (codeRow : κ) (sqrtFn : ℚ → ℚ)
    (camPos lightPos : Vec3) (resolution : ℕ) (focal thr : ℚ) (iterations ssaa : ℕ)
    (radius : ℚ)
    (h : ∀ b ∈ (primaryMarch forward codeRow sqrtFn camPos resolution focal thr iterations
        ssaa radius).mask, b = false) :
    getImage forward normalsFn codeRow sqrtFn camPos lightPos resolution focal thr
        iterations ssaa radius = Except.error RenderError.shadowFail :=
  getImage_error_of_no_hits forward normalsFn codeRow sqrtFn camPos lightPos resolution
    focal thr iterations ssaa radius h

/-- Counterexample for C2: a concrete all-miss scene (the oracle always
returns 10, and the single ray misses even the bounding sphere); the
render does not complete with a background/shadow pixel partition, it
returns the shadow failure instead. -/
theorem claim_c2_counterexample :
    getImage forwardBig normalsUp () sqrtDemo ⟨0, 0, -2⟩ ⟨0, 3, 0⟩ 1 (1 / 2) (1 / 2000)
      100 1 1 = Except.error RenderError.shadowFail := by
  have hmask : (primaryMarch forwardBig () sqrtDemo ⟨0, 0, -2⟩ 1 (1 / 2) (1 / 2000)
      100 1 1).mask = [false] := by
    rw [primaryMarch_mask_of_empty forwardBig () sqrtDemo ⟨0, 0, -2⟩ 1 (1 / 2) (1 / 2000)
      100 1 1 (by rw [primaryInitDemoState]) (by decide), primaryInitDemoState]
  exact getImage_error_of_no_hits forwardBig normalsUp () sqrtDemo ⟨0, 0, -2⟩ ⟨0, 3, 0⟩ 1
    (1 / 2) (1 / 2000) 100 1 1 (by rw [hmask]; intro b hb; simpa using hb)

/-- Witness for C2 at the same concrete all-miss scene. -/
theorem claim_c2_witness :
    (primaryMarch forwardBig () sqrtDemo ⟨0, 0, -2⟩ 1 (1 / 2) (1 / 2000) 100 1 1).mask
      = [false]
    ∧ getImage forwardBig normalsUp () sqrtDemo ⟨0, 0, -2⟩ ⟨0, 3, 0⟩ 1 (1 / 2) (1 / 2000)
        100 1 1 = Except.error RenderError.shadowFail :=
  have hmask : (primaryMarch forwardBig () sqrtDemo ⟨0, 0, -2⟩ 1 (1 / 2) (1 / 2000)
      100 1 1).mask = [false] := by
    rw [primaryMarch_mask_of_empty forwardBig () sqrtDemo ⟨0, 0, -2⟩ 1 (1 / 2) (1 / 2000)
      100 1 1 (by rw [primaryInitDemoState]) (by decide), primaryInitDemoState]
  ⟨hmask, claim_c2_all_miss_fails forwardBig normalsUp () sqrtDemo ⟨0, 0, -2⟩ ⟨0, 3, 0⟩ 1
    (1 / 2) (1 / 2000) 100 1 1 (by rw [hmask]; intro b hb; simpa using hb)⟩

/-- C1 (code evaluated at the failing input): a one-point batch makes
the shadow loop's early exit fire after its first iteration, and
get_shadows returns None (no boolean array at all) instead of one
boolean for the point. -/
theorem claim_c1_singleton_returns_none :
    getShadows forwardBig [⟨0, 0, 0⟩] ⟨0, 3, 0⟩ () sqrtDemo (1 / 1000) 1 = none := by
  with_unfolding_all rfl

end Raymarching
